import Mathlib

/-!
A shallow embedding of `lib/git-file-downloader.js` (git-file-downloader).

The class `GitFileDownloader` has a constructor (option validation through a
`joi` schema, then URL and header resolution by provider) and one method
`run` (one HTTP GET, then an optional directory creation and file write).

Modelling conventions:

* JavaScript values reaching the constructor are values of `JsValue`; a key
  that is not set on the options object reads as `JsValue.undefined`.
* A thrown exception is `Except.error`; the constructor either throws or
  yields the instance state `(options, headers, url)`.
* The collaborators of `run` (superagent, fs-extra) are a `World`: total
  functions giving the outcome of each call. `run` returns the request it
  issued, the filesystem calls it made (in order) and the calls it made to
  the promise's `resolve` / `reject` (in order); the promise is settled by
  the first of those calls.
* `path` is Node's POSIX `path` module.
-/

namespace GitFileDownloader

/-! ## JavaScript values and option objects -/

/-- JavaScript values that can be stored under a key of the options object. -/
inductive JsValue where
  | undefined
  | null
  | bool (b : Bool)
  | number (n : Int)
  | str (s : String)
  | object
  deriving DecidableEq, Repr

/-- The ten keys of the options object the schema names (further keys are
accepted by `.unknown()` and never read). A key that is not set is
`undefined`. -/
structure RawOptions where
  provider : JsValue := .undefined
  repository : JsValue := .undefined
  branch : JsValue := .undefined
  file : JsValue := .undefined
  output : JsValue := .undefined
  keep_original_path : JsValue := .undefined
  private_token : JsValue := .undefined
  oauth2_token : JsValue := .undefined
  basic_username : JsValue := .undefined
  basic_password : JsValue := .undefined
  deriving DecidableEq, Repr

/-- The argument of `new GitFileDownloader(options)`. -/
inductive OptionsArg where
  | undefined
  | notAnObject
  | object (o : RawOptions)
  deriving DecidableEq, Repr

/-- The value of `validatedOptions.value`: every key after defaults were
applied. `none` is JavaScript `null` (the default of the optional keys). -/
structure Options where
  provider : String
  repository : String
  branch : String
  file : String
  output : Option String
  keep_original_path : Bool
  private_token : Option String
  oauth2_token : Option String
  basic_username : Option String
  basic_password : Option String
  deriving DecidableEq, Repr

/-! ## The joi rules used by `optSchema` -/

/-- The message joi gives for a failing key of an object schema. -/
def joiChildMessage (key reason : String) : String :=
  "child \"" ++ key ++ "\" fails because [\"" ++ key ++ "\" " ++ reason ++ "]"

/-- Rule `joi.string().allow(allowed)` on a value that is not `undefined`:
a value of the allow list is accepted before any other rule; otherwise the
value must be a string and must not be empty. `allow` adds to what is
accepted, it does not restrict (that would be `valid`). -/
def joiString (key : String) (allowed : List String) : JsValue → Except String String
  | .str s =>
    if s ∈ allowed then .ok s
    else if s = "" then .error (joiChildMessage key "is not allowed to be empty")
    else .ok s
  | _ => .error (joiChildMessage key "must be a string")

/-- Rule `joi.string().allow(allowed).required()`. -/
def joiStringRequired (key : String) (allowed : List String) : JsValue → Except String String
  | .undefined => .error (joiChildMessage key "is required")
  | v => joiString key allowed v

/-- Rule `joi.string().default(d)`. -/
def joiStringDefault {α : Type} (key : String) (d : α) (some : String → α) : JsValue → Except String α
  | .undefined => .ok d
  | v => (joiString key [] v).map some

/-- Rule `joi.boolean().default(d)`: booleans, and with joi's default
conversion the strings true and false. -/
def joiBooleanDefault (key : String) (d : Bool) : JsValue → Except String Bool
  | .undefined => .ok d
  | .bool b => .ok b
  | .str s =>
    if s = "true" then .ok true
    else if s = "false" then .ok false
    else .error (joiChildMessage key "must be a boolean")
  | _ => .error (joiChildMessage key "must be a boolean")

/-- The validation `joi.validate(options, optSchema)`: keys are checked in
schema order and the first failure is the error (joi aborts early). -/
def joiValidate : OptionsArg → Except String Options
  | .undefined => .error "\"value\" is required"
  | .notAnObject => .error "\"value\" must be an object"
  | .object o => do
    let provider ← joiStringRequired "provider" ["github", "gitlab"] o.provider
    let repository ← joiStringRequired "repository" [] o.repository
    let branch ← joiStringDefault "branch" "master" id o.branch
    let file ← joiStringRequired "file" [] o.file
    let output ← joiStringDefault "output" none some o.output
    let keep_original_path ← joiBooleanDefault "keep_original_path" false o.keep_original_path
    let private_token ← joiStringDefault "private_token" none some o.private_token
    let oauth2_token ← joiStringDefault "oauth2_token" none some o.oauth2_token
    let basic_username ← joiStringDefault "basic_username" none some o.basic_username
    let basic_password ← joiStringDefault "basic_password" none some o.basic_password
    pure { provider, repository, branch, file, output, keep_original_path,
           private_token, oauth2_token, basic_username, basic_password }

/-! ## The constructor -/

/-- `GitFileDownloader.GithubRawBaseUrl`. -/
def GithubRawBaseUrl : String := "https://raw.githubusercontent.com/"

/-- `GitFileDownloader.GitlabRawBaseUrl`. -/
def GitlabRawBaseUrl : String := "https://gitlab.com/"

/-- `Array.prototype.join(sep)` on an array of strings. -/
def arrayJoin (sep : String) : List String → String
  | [] => ""
  | [a] => a
  | a :: b :: rest => a ++ sep ++ arrayJoin sep (b :: rest)

/-- A property assignment `headers[key] = value` on a plain object whose
keys are kept in insertion order. -/
def setProperty (headers : List (String × String)) (key value : String) : List (String × String) :=
  if headers.any (fun kv => kv.1 = key) then
    headers.map (fun kv => if kv.1 = key then (kv.1, value) else kv)
  else headers ++ [(key, value)]

/-- The state of an instance after the constructor returned. -/
structure Instance where
  options : Options
  headers : List (String × String)
  url : String
  deriving DecidableEq, Repr

/-- The constructor: validation, then the `switch` on the provider. The
`github` case shares its body with `default`, so every provider that is not
`gitlab` takes it. -/
def constructor (options : OptionsArg) : Except String Instance :=
  match joiValidate options with
  | .error message => .error ("GitFileDownloader" ++ " options validation error: " ++ message)
  | .ok opts =>
    let headers : List (String × String) := []
    if opts.provider = "gitlab" then
      let url := GitlabRawBaseUrl ++ arrayJoin "/" [opts.repository, "raw", opts.branch, opts.file]
      let url := match opts.private_token with
        | some t => url ++ ("?private_token=" ++ t)
        | none => url
      .ok { options := opts, headers := headers, url := url }
    else
      let url := GithubRawBaseUrl ++ arrayJoin "/" [opts.repository, opts.branch, opts.file]
      let headers := setProperty headers "Accept" "application/vnd.github.v3.raw"
      let headers := match opts.oauth2_token with
        | some t => setProperty headers "Authorization" ("token " ++ t)
        | none => headers
      .ok { options := opts, headers := headers, url := url }

/-! ## Node's POSIX `path` functions used by `run` -/

namespace path

/-- The segments of a path between its `/` separators (empty ones kept). -/
def splitOnSlash : List Char → List (List Char)
  | [] => [[]]
  | c :: cs =>
    if c = '/' then [] :: splitOnSlash cs
    else match splitOnSlash cs with
      | [] => [[c]]
      | s :: ss => (c :: s) :: ss

/-- One step of `normalizeString`: `stack` holds the segments kept so far,
last one first. Empty and `.` segments are dropped; `..` removes the last
kept segment unless there is none or it is `..` itself, in which case it is
kept only when the path may climb above its root. -/
def normalizeStep (allowAboveRoot : Bool) (stack : List (List Char)) (seg : List Char) : List (List Char) :=
  if seg = [] ∨ seg = ['.'] then stack
  else if seg = ['.', '.'] then
    match stack with
    | top :: below =>
      if top ≠ ['.', '.'] then below
      else if allowAboveRoot then seg :: stack else stack
    | [] => if allowAboveRoot then [seg] else []
  else seg :: stack

/-- Function `normalizeString(path, allowAboveRoot, '/', isPosixPathSeparator)`:
resolves `.` and `..` segments and joins what is left with single slashes. -/
def normalizeString (p : List Char) (allowAboveRoot : Bool) : List Char :=
  List.intercalate ['/'] ((splitOnSlash p).foldl (normalizeStep allowAboveRoot) []).reverse

/-- Function `path.normalize(path)`. -/
def normalize (p : String) : String :=
  match p.data with
  | [] => "."
  | c :: cs =>
    let isAbsolute : Bool := c = '/'
    let trailingSeparator : Bool := (c :: cs).getLast? = some '/'
    let res := normalizeString (c :: cs) (!isAbsolute)
    if res = [] then
      if isAbsolute then "/" else if trailingSeparator then "./" else "."
    else
      let res := if trailingSeparator then res ++ ['/'] else res
      if isAbsolute then String.mk ('/' :: res) else String.mk res

/-- Function `path.join(...args)`: the non-empty arguments joined with `/`,
then normalized; `.` when nothing is left. -/
def join (args : List String) : String :=
  match args.filter (fun a => a ≠ "") with
  | [] => "."
  | a :: rest => normalize (String.intercalate "/" (a :: rest))

/-- Function `path.basename(path)` (no extension argument): trailing slashes
are skipped, then the characters back to the previous slash are taken. -/
def basename (p : String) : String :=
  String.mk ((p.data.reverse.dropWhile (fun c => c = '/')).takeWhile (fun c => c ≠ '/')).reverse

/-- Function `path.dirname(path)`: scanning from the end down to index 1,
trailing slashes are skipped, then the last segment; the path up to the
slash found there is the result. -/
def dirname (p : String) : String :=
  match p.data with
  | [] => "."
  | c :: tail =>
    match (tail.reverse.dropWhile (fun x => x = '/')).dropWhile (fun x => x ≠ '/') with
    | [] => if c = '/' then "/" else "."
    | _ :: rest => if c = '/' ∧ rest = [] then "//" else String.mk (c :: rest.reverse)

end path

/-! ## The collaborators of `run` -/

/-- A JavaScript `Error` object. -/
structure JsError where
  name : String
  message : String
  deriving DecidableEq, Repr

/-- The response object superagent hands to the callback (only `text` is read). -/
structure Response where
  text : String
  deriving DecidableEq, Repr

/-- The arguments of the callback given to `req.end`: a request error, or
no error and a response. -/
inductive EndResult where
  | failure (requestError : JsError)
  | success (res : Response)
  deriving DecidableEq, Repr

/-- The request as built on the superagent object before `end`: the URL of
`request.get`, the argument of `redirects`, the `set` calls in order, and
the arguments of `auth` when it was called. -/
structure Request where
  url : String
  redirects : Nat
  headers : List (String × String)
  auth : Option (String × String)
  deriving DecidableEq, Repr

/-- The outcome of each call `run` makes on its collaborators. For the two
filesystem functions `none` is success and `some e` is the error: thrown by
`ensureDirSync`, passed to the callback by `writeFile`. -/
structure World where
  send : Request → EndResult
  ensureDirSync : String → Option JsError
  writeFile : String → String → Option JsError

/-- A call on `fs-extra`. -/
inductive FsCall where
  | ensureDirSync (dir : String)
  | writeFile (file : String) (data : String)
  deriving DecidableEq, Repr

/-- A call on one of the two functions of the promise executor. -/
inductive PromiseCall where
  | resolve (value : JsValue)
  | reject (reason : JsError)
  deriving DecidableEq, Repr

/-- What one call of `run` did. -/
structure RunResult where
  request : Request
  fsCalls : List FsCall
  promiseCalls : List PromiseCall
  deriving DecidableEq, Repr

/-- The state the promise settles in: only the first call of `resolve` or
`reject` has an effect. -/
def RunResult.settled (r : RunResult) : Option PromiseCall :=
  r.promiseCalls.head?

/-- The fixed message set on a request error. -/
def downloadErrorMessage : String :=
  "Error while downloading file. Please check options and token."

/-- The request `run` builds: headers are set from `this.headers`, basic
auth is applied when both `basic_username` and `basic_password` are not null. -/
def buildRequest (self : Instance) : Request :=
  { url := self.url
    redirects := 0
    headers := self.headers
    auth := match self.options.basic_username, self.options.basic_password with
      | some u, some p => some (u, p)
      | _, _ => none }

/-- The method `run`. -/
def run (self : Instance) (w : World) : RunResult :=
  let req := buildRequest self
  match w.send req with
  | .success res =>
    match self.options.output with
    | none => { request := req, fsCalls := [], promiseCalls := [.resolve (.str res.text)] }
    | some output =>
      let fileSubPath := path.basename self.options.file
      let (fileSubPath, fsCalls, promiseCalls) :=
        if self.options.keep_original_path then
          let fileSubPath := self.options.file
          let dir := path.dirname fileSubPath
          match w.ensureDirSync dir with
          | none => (fileSubPath, [FsCall.ensureDirSync dir], [])
          | some ensureDirerror => (fileSubPath, [FsCall.ensureDirSync dir], [PromiseCall.reject ensureDirerror])
        else (fileSubPath, [], [])
      let filePath := path.join [output, fileSubPath]
      let afterWrite := match w.writeFile filePath res.text with
        | some writeError => PromiseCall.reject writeError
        | none => PromiseCall.resolve (.bool true)
      { request := req
        fsCalls := fsCalls ++ [FsCall.writeFile filePath res.text]
        promiseCalls := promiseCalls ++ [afterWrite] }
  | .failure requestError =>
    { request := req
      fsCalls := []
      promiseCalls := [.reject { requestError with message := downloadErrorMessage }] }

/-! ## Concrete requests and worlds used to exercise the model -/

/-- The options of the first GitHub test, with an OAuth token. -/
def githubOptions : RawOptions :=
  { provider := .str "github", repository := .str "foo/bar", branch := .str "master",
    file := .str "test.txt", output := .str "/tmp", keep_original_path := .bool false,
    oauth2_token := .str "myAwesomeToken" }

/-- The instance the constructor builds from `githubOptions`. -/
def githubInstance : Instance :=
  { options :=
      { provider := "github", repository := "foo/bar", branch := "master", file := "test.txt",
        output := some "/tmp", keep_original_path := false, private_token := none,
        oauth2_token := some "myAwesomeToken", basic_username := none, basic_password := none }
    headers := [("Accept", "application/vnd.github.v3.raw"), ("Authorization", "token myAwesomeToken")]
    url := "https://raw.githubusercontent.com/foo/bar/master/test.txt" }

/-- The options of the GitLab test without output, branch left out. -/
def gitlabOptions : RawOptions :=
  { provider := .str "gitlab", repository := .str "foo/bar", file := .str "test.txt",
    keep_original_path := .bool false, private_token := .str "myAwesomeToken" }

/-- The instance the constructor builds from `gitlabOptions`. -/
def gitlabInstance : Instance :=
  { options :=
      { provider := "gitlab", repository := "foo/bar", branch := "master", file := "test.txt",
        output := none, keep_original_path := false, private_token := some "myAwesomeToken",
        oauth2_token := none, basic_username := none, basic_password := none }
    headers := []
    url := "https://gitlab.com/foo/bar/raw/master/test.txt?private_token=myAwesomeToken" }

/-- The options of the first GitHub test, for a file three segments deep. -/
def flatOptions : RawOptions :=
  { provider := .str "github", repository := .str "foo/bar", branch := .str "master",
    file := .str "src/lib/test.txt", output := .str "/tmp", keep_original_path := .bool false }

/-- The instance the constructor builds from `flatOptions`. -/
def flatInstance : Instance :=
  { options :=
      { provider := "github", repository := "foo/bar", branch := "master", file := "src/lib/test.txt",
        output := some "/tmp", keep_original_path := false, private_token := none,
        oauth2_token := none, basic_username := none, basic_password := none }
    headers := [("Accept", "application/vnd.github.v3.raw")]
    url := "https://raw.githubusercontent.com/foo/bar/master/src/lib/test.txt" }

/-- Options naming a provider that is neither `github` nor `gitlab`. -/
def bitbucketOptions : RawOptions :=
  { provider := .str "bitbucket", repository := .str "foo/bar", file := .str "test.txt" }

/-- The options of the test `Should fails to ensureDir`. -/
def ensureDirTestOptions : RawOptions :=
  { provider := .str "gitlab", repository := .str "foo/bar", branch := .str "master",
    file := .str "test.txt", output := .str "/tmp", keep_original_path := .bool true }

/-- The instance the constructor builds from `ensureDirTestOptions`. -/
def ensureDirTestInstance : Instance :=
  { options :=
      { provider := "gitlab", repository := "foo/bar", branch := "master", file := "test.txt",
        output := some "/tmp", keep_original_path := true, private_token := none,
        oauth2_token := none, basic_username := none, basic_password := none }
    headers := []
    url := "https://gitlab.com/foo/bar/raw/master/test.txt" }

/-- Options keeping the original path of a file inside a directory. -/
def nestedOptions : RawOptions :=
  { provider := .str "github", repository := .str "foo/bar", branch := .str "master",
    file := .str "a/test.txt", output := .str "/tmp", keep_original_path := .bool true }

/-- The instance the constructor builds from `nestedOptions`. -/
def nestedInstance : Instance :=
  { options :=
      { provider := "github", repository := "foo/bar", branch := "master", file := "a/test.txt",
        output := some "/tmp", keep_original_path := true, private_token := none,
        oauth2_token := none, basic_username := none, basic_password := none }
    headers := [("Accept", "application/vnd.github.v3.raw")]
    url := "https://raw.githubusercontent.com/foo/bar/master/a/test.txt" }

/-- GitLab options that also carry the two GitHub basic-auth keys. -/
def gitlabBasicOptions : RawOptions :=
  { provider := .str "gitlab", repository := .str "foo/bar", branch := .str "master",
    file := .str "test.txt", private_token := .str "myAwesomeToken",
    basic_username := .str "user", basic_password := .str "pass" }

/-- The instance the constructor builds from `gitlabBasicOptions`. -/
def gitlabBasicInstance : Instance :=
  { options :=
      { provider := "gitlab", repository := "foo/bar", branch := "master", file := "test.txt",
        output := none, keep_original_path := false, private_token := some "myAwesomeToken",
        oauth2_token := none, basic_username := some "user", basic_password := some "pass" }
    headers := []
    url := "https://gitlab.com/foo/bar/raw/master/test.txt?private_token=myAwesomeToken" }

/-- The stubs of the test file: every request succeeds with body `test`,
every filesystem call succeeds. -/
def mockedWorld : World :=
  { send := fun _ => .success { text := "test" }
    ensureDirSync := fun _ => none
    writeFile := fun _ _ => none }

/-- The stubs of `Should fails to download a file`. -/
def mockedWorldWithFailure : World :=
  { send := fun _ => .failure { name := "Error", message := "superagent error" }
    ensureDirSync := fun _ => none
    writeFile := fun _ _ => none }

/-- The stubs of `Should fails to ensureDir`. -/
def ensureDirFailureWorld : World :=
  { send := fun _ => .success { text := "test" }
    ensureDirSync := fun _ => some { name := "Error", message := "ensureDirSync error" }
    writeFile := fun _ _ => none }

end GitFileDownloader

namespace GitFileDownloader

/-! ## What validation guarantees -/

theorem joiString_ok {key : String} {allowed : List String} {v : JsValue} {s : String}
    (h : joiString key allowed v = .ok s) : v = .str s := by
  cases v with
  | str t =>
    simp only [joiString] at h
    split_ifs at h <;> simp_all
  | _ => simp [joiString] at h

theorem joiStringRequired_ok {key : String} {allowed : List String} {v : JsValue} {s : String}
    (h : joiStringRequired key allowed v = .ok s) : v = .str s := by
  cases v with
  | undefined => simp [joiStringRequired] at h
  | _ => exact joiString_ok (by simpa [joiStringRequired] using h)

theorem joiStringDefault_id_ok {key d : String} {v : JsValue} {s : String}
    (h : joiStringDefault key d id v = .ok s) :
    (v = .undefined ∧ s = d) ∨ v = .str s := by
  cases v with
  | undefined =>
    left
    simp [joiStringDefault] at h
    exact ⟨rfl, h.symm⟩
  | str t =>
    right
    simp only [joiStringDefault, Except.map] at h
    split at h
    · simp at h
    · next a heq => rw [joiString_ok heq]; simpa using h
  | _ => simp [joiStringDefault, joiString, Except.map] at h

theorem joiStringDefault_some_ok {key : String} {v : JsValue} {r : Option String}
    (h : joiStringDefault key none some v = .ok r) :
    (v = .undefined ∧ r = none) ∨ ∃ s, v = .str s ∧ r = some s := by
  cases v with
  | undefined =>
    left
    simp [joiStringDefault] at h
    exact ⟨rfl, h.symm⟩
  | str t =>
    right
    simp only [joiStringDefault, Except.map] at h
    split at h
    · simp at h
    · next a heq => exact ⟨a, joiString_ok heq, by simpa using h.symm⟩
  | _ => simp [joiStringDefault, joiString, Except.map] at h

theorem bind_eq_ok {ε α β : Type} {x : Except ε α} {f : α → Except ε β} {b : β}
    (h : x >>= f = .ok b) : ∃ a, x = .ok a ∧ f a = .ok b := by
  cases x with
  | error e => simp [bind, Except.bind] at h
  | ok a => exact ⟨a, rfl, h⟩

/-- The link between the options object and the validated options. -/
structure Validated (o : RawOptions) (opts : Options) : Prop where
  provider : o.provider = .str opts.provider
  repository : o.repository = .str opts.repository
  branch : (o.branch = .undefined ∧ opts.branch = "master") ∨ o.branch = .str opts.branch
  file : o.file = .str opts.file
  output : (o.output = .undefined ∧ opts.output = none) ∨ ∃ s, o.output = .str s ∧ opts.output = some s
  private_token : (o.private_token = .undefined ∧ opts.private_token = none)
    ∨ ∃ s, o.private_token = .str s ∧ opts.private_token = some s
  oauth2_token : (o.oauth2_token = .undefined ∧ opts.oauth2_token = none)
    ∨ ∃ s, o.oauth2_token = .str s ∧ opts.oauth2_token = some s
  basic_username : (o.basic_username = .undefined ∧ opts.basic_username = none)
    ∨ ∃ s, o.basic_username = .str s ∧ opts.basic_username = some s
  basic_password : (o.basic_password = .undefined ∧ opts.basic_password = none)
    ∨ ∃ s, o.basic_password = .str s ∧ opts.basic_password = some s

theorem joiValidate_ok {arg : OptionsArg} {opts : Options} (h : joiValidate arg = .ok opts) :
    ∃ o, arg = .object o ∧ Validated o opts := by
  cases arg with
  | undefined => simp [joiValidate] at h
  | notAnObject => simp [joiValidate] at h
  | object o =>
    refine ⟨o, rfl, ?_⟩
    unfold joiValidate at h
    obtain ⟨provider, h1, h⟩ := bind_eq_ok h
    obtain ⟨repository, h2, h⟩ := bind_eq_ok h
    obtain ⟨branch, h3, h⟩ := bind_eq_ok h
    obtain ⟨file, h4, h⟩ := bind_eq_ok h
    obtain ⟨output, h5, h⟩ := bind_eq_ok h
    obtain ⟨keep, h6, h⟩ := bind_eq_ok h
    obtain ⟨private_token, h7, h⟩ := bind_eq_ok h
    obtain ⟨oauth2_token, h8, h⟩ := bind_eq_ok h
    obtain ⟨basic_username, h9, h⟩ := bind_eq_ok h
    obtain ⟨basic_password, h10, h⟩ := bind_eq_ok h
    simp only [pure, Except.pure, Except.ok.injEq] at h
    subst h
    exact
      { provider := joiStringRequired_ok h1
        repository := joiStringRequired_ok h2
        branch := joiStringDefault_id_ok h3
        file := joiStringRequired_ok h4
        output := joiStringDefault_some_ok h5
        private_token := joiStringDefault_some_ok h7
        oauth2_token := joiStringDefault_some_ok h8
        basic_username := joiStringDefault_some_ok h9
        basic_password := joiStringDefault_some_ok h10 }

/-- A constructor that returns has validated its argument, kept the
validated options, and resolved url and headers from them alone. -/
theorem constructor_ok {arg : OptionsArg} {self : Instance} (h : constructor arg = .ok self) :
    joiValidate arg = .ok self.options ∧
    ((self.options.provider = "gitlab" ∧ self.headers = [] ∧
        self.url = GitlabRawBaseUrl
          ++ arrayJoin "/" [self.options.repository, "raw", self.options.branch, self.options.file]
          ++ (match self.options.private_token with
              | some t => "?private_token=" ++ t
              | none => "")) ∨
     (self.options.provider ≠ "gitlab" ∧
        self.url = GithubRawBaseUrl
          ++ arrayJoin "/" [self.options.repository, self.options.branch, self.options.file] ∧
        self.headers = (match self.options.oauth2_token with
          | some t => [("Accept", "application/vnd.github.v3.raw"), ("Authorization", "token " ++ t)]
          | none => [("Accept", "application/vnd.github.v3.raw")]))) := by
  unfold constructor at h
  split at h
  · simp at h
  · next opts hv =>
    simp only at h
    split_ifs at h with hp
    · simp only [Except.ok.injEq] at h
      subst h
      refine ⟨hv, Or.inl ⟨hp, rfl, ?_⟩⟩
      cases opts.private_token <;> simp
    · simp only [Except.ok.injEq] at h
      subst h
      refine ⟨hv, Or.inr ⟨hp, rfl, ?_⟩⟩
      cases opts.oauth2_token <;> simp [setProperty]

end GitFileDownloader

namespace GitFileDownloader

/-! ## The claims about the constructor -/

/-- C1: for every options object that passes validation with provider `github`, the url is
exactly `https://raw.githubusercontent.com/` followed by repository, `/`, branch (`master` when
the key is not set), `/` and file, with no query string; the headers are exactly `Accept` with
the raw media type, followed by `Authorization: token T` exactly when `oauth2_token` is set to
`T`. -/
theorem C1_github_url_and_headers (o : RawOptions) (self : Instance)
    (hp : o.provider = .str "github")
    (h : constructor (.object o) = .ok self) :
    ∃ repository file,
      o.repository = .str repository ∧ o.file = .str file ∧
      self.url = "https://raw.githubusercontent.com/" ++ repository ++ "/"
        ++ (match o.branch with | .str b => b | _ => "master") ++ "/" ++ file ∧
      self.headers = (match o.oauth2_token with
        | .str T => [("Accept", "application/vnd.github.v3.raw"), ("Authorization", "token " ++ T)]
        | _ => [("Accept", "application/vnd.github.v3.raw")]) := by
  obtain ⟨hv, hres⟩ := constructor_ok h
  obtain ⟨o2, ho, v⟩ := joiValidate_ok hv
  cases ho
  have hprov : self.options.provider = "github" := by
    have := v.provider
    rw [hp] at this
    exact (JsValue.str.inj this).symm
  rcases hres with ⟨hg, _⟩ | ⟨_, hurl, hheaders⟩
  · rw [hprov] at hg
    exact absurd hg (by decide)
  · refine ⟨self.options.repository, self.options.file, v.repository, v.file, ?_, ?_⟩
    · rw [hurl]
      rcases v.branch with ⟨hb, hm⟩ | hb
      · simp only [hb, hm, GithubRawBaseUrl, arrayJoin, String.append_assoc]
      · simp only [hb, GithubRawBaseUrl, arrayJoin, String.append_assoc]
    · rw [hheaders]
      rcases v.oauth2_token with ⟨ht, hn⟩ | ⟨t, ht, hs⟩
      · simp [ht, hn]
      · simp [ht, hs]

/-- Witness of C1 on the options of the GitHub test with an OAuth token. -/
theorem C1_github_url_and_headers_witness :
    githubOptions.provider = .str "github" ∧
    constructor (.object githubOptions) = .ok githubInstance ∧
    ∃ repository file,
      githubOptions.repository = .str repository ∧ githubOptions.file = .str file ∧
      githubInstance.url = "https://raw.githubusercontent.com/" ++ repository ++ "/"
        ++ (match githubOptions.branch with | .str b => b | _ => "master") ++ "/" ++ file ∧
      githubInstance.headers = (match githubOptions.oauth2_token with
        | .str T => [("Accept", "application/vnd.github.v3.raw"), ("Authorization", "token " ++ T)]
        | _ => [("Accept", "application/vnd.github.v3.raw")]) :=
  ⟨rfl, rfl, C1_github_url_and_headers githubOptions githubInstance rfl rfl⟩

/-- C2: for every options object that passes validation with provider `gitlab`, the url is
`https://gitlab.com/` followed by repository, `/raw/`, branch (`master` when the key is not
set), `/` and file, followed by `?private_token=T` exactly when `private_token` is set to `T`;
the header set is empty. -/
theorem C2_gitlab_url_and_headers (o : RawOptions) (self : Instance)
    (hp : o.provider = .str "gitlab")
    (h : constructor (.object o) = .ok self) :
    ∃ repository file,
      o.repository = .str repository ∧ o.file = .str file ∧
      self.url = "https://gitlab.com/" ++ repository ++ "/raw/"
        ++ (match o.branch with | .str b => b | _ => "master") ++ "/" ++ file
        ++ (match o.private_token with | .str T => "?private_token=" ++ T | _ => "") ∧
      self.headers = [] := by
  obtain ⟨hv, hres⟩ := constructor_ok h
  obtain ⟨o2, ho, v⟩ := joiValidate_ok hv
  cases ho
  have hprov : self.options.provider = "gitlab" := by
    have := v.provider
    rw [hp] at this
    exact (JsValue.str.inj this).symm
  rcases hres with ⟨_, hheaders, hurl⟩ | ⟨hg, _⟩
  · refine ⟨self.options.repository, self.options.file, v.repository, v.file, ?_, hheaders⟩
    have hraw : ("/raw/" : String) = "/" ++ ("raw" ++ "/") := by decide
    rw [hurl]
    rcases v.branch with ⟨hb, hm⟩ | hb
    · rcases v.private_token with ⟨ht, hn⟩ | ⟨t, ht, hs⟩
      · simp only [hb, hm, ht, hn, hraw, GitlabRawBaseUrl, arrayJoin, String.append_assoc,
          String.append_empty]
      · simp only [hb, hm, ht, hs, hraw, GitlabRawBaseUrl, arrayJoin, String.append_assoc]
    · rcases v.private_token with ⟨ht, hn⟩ | ⟨t, ht, hs⟩
      · simp only [hb, ht, hn, hraw, GitlabRawBaseUrl, arrayJoin, String.append_assoc,
          String.append_empty]
      · simp only [hb, ht, hs, hraw, GitlabRawBaseUrl, arrayJoin, String.append_assoc]
  · exact absurd hprov hg

/-- Witness of C2 on the options of the GitLab test with a private token. -/
theorem C2_gitlab_url_and_headers_witness :
    gitlabOptions.provider = .str "gitlab" ∧
    constructor (.object gitlabOptions) = .ok gitlabInstance ∧
    ∃ repository file,
      gitlabOptions.repository = .str repository ∧ gitlabOptions.file = .str file ∧
      gitlabInstance.url = "https://gitlab.com/" ++ repository ++ "/raw/"
        ++ (match gitlabOptions.branch with | .str b => b | _ => "master") ++ "/" ++ file
        ++ (match gitlabOptions.private_token with | .str T => "?private_token=" ++ T | _ => "") ∧
      gitlabInstance.headers = [] :=
  ⟨rfl, rfl, C2_gitlab_url_and_headers gitlabOptions gitlabInstance rfl rfl⟩

/-- C4: when the options value is undefined, or is an object on which provider, repository or
file is not set, the constructor throws an error whose message contains
`options validation error`; no instance (url, headers) comes out of it. -/
theorem C4_missing_required_throws (arg : OptionsArg)
    (hmiss : arg = .undefined ∨
      ∃ o, arg = .object o ∧
        (o.provider = .undefined ∨ o.repository = .undefined ∨ o.file = .undefined)) :
    ∃ message, constructor arg = .error message ∧
      ∃ before after, message = before ++ "options validation error" ++ after := by
  have hnot : ∀ opts, joiValidate arg ≠ .ok opts := by
    intro opts hv
    obtain ⟨o, ho, v⟩ := joiValidate_ok hv
    rcases hmiss with hu | ⟨o2, ho2, hm⟩
    · rw [hu] at ho
      cases ho
    · rw [ho2] at ho
      cases ho
      rcases hm with hm | hm | hm
      · have := v.provider
        rw [hm] at this
        cases this
      · have := v.repository
        rw [hm] at this
        cases this
      · have := v.file
        rw [hm] at this
        cases this
  cases hj : joiValidate arg with
  | ok opts => exact absurd hj (hnot opts)
  | error m =>
    refine ⟨"GitFileDownloader" ++ " options validation error: " ++ m, ?_, "GitFileDownloader ", ": " ++ m, ?_⟩
    · simp [constructor, hj]
    · have e1 : "GitFileDownloader" ++ " options validation error: "
          = "GitFileDownloader " ++ "options validation error" ++ ": " := by decide
      rw [e1, String.append_assoc]

/-- Witness of C4 on an options object without a file. -/
theorem C4_missing_required_throws_witness :
    ∃ message,
      constructor (.object { provider := .str "github", repository := .str "foo/bar" }) = .error message ∧
      ∃ before after, message = before ++ "options validation error" ++ after :=
  C4_missing_required_throws (.object { provider := .str "github", repository := .str "foo/bar" })
    (Or.inr ⟨_, rfl, Or.inr (Or.inr rfl)⟩)

end GitFileDownloader

namespace GitFileDownloader

/-- C3 (the code does otherwise): the provider `bitbucket`, with repository and file set,
passes validation, and the constructor resolves the GitHub url and headers for it. -/
theorem C3_unrecognized_provider_is_accepted :
    constructor (.object bitbucketOptions) = .ok
      { options :=
          { provider := "bitbucket", repository := "foo/bar", branch := "master", file := "test.txt",
            output := none, keep_original_path := false, private_token := none,
            oauth2_token := none, basic_username := none, basic_password := none }
        headers := [("Accept", "application/vnd.github.v3.raw")]
        url := "https://raw.githubusercontent.com/foo/bar/master/test.txt" } := by
  rfl

/-! ## The claims about `run` -/

/-- C5: for every valid request and every request error reported by the HTTP client, `run`
rejects with that error, its message replaced by the fixed text, and makes no filesystem
call; `reject` is the only call made on the promise. -/
theorem C5_request_error_rejects_with_fixed_message (arg : OptionsArg) (self : Instance) (w : World)
    (requestError : JsError)
    (_hvalid : constructor arg = .ok self)
    (hsend : w.send (buildRequest self) = .failure requestError) :
    (run self w).settled = some (.reject
      { name := requestError.name
        message := "Error while downloading file. Please check options and token." }) ∧
    (run self w).promiseCalls.length = 1 ∧
    (run self w).fsCalls = [] := by
  simp [run, hsend, RunResult.settled, downloadErrorMessage]

/-- Witness of C5 on the stubs of the failing-download test. -/
theorem C5_request_error_rejects_with_fixed_message_witness :
    constructor (.object gitlabOptions) = .ok gitlabInstance ∧
    mockedWorldWithFailure.send (buildRequest gitlabInstance)
      = .failure { name := "Error", message := "superagent error" } ∧
    (run gitlabInstance mockedWorldWithFailure).settled = some (.reject
      { name := "Error"
        message := "Error while downloading file. Please check options and token." }) ∧
    (run gitlabInstance mockedWorldWithFailure).promiseCalls.length = 1 ∧
    (run gitlabInstance mockedWorldWithFailure).fsCalls = [] :=
  ⟨rfl, rfl, C5_request_error_rejects_with_fixed_message (.object gitlabOptions) gitlabInstance
    mockedWorldWithFailure { name := "Error", message := "superagent error" } rfl rfl⟩

/-- C6: for every valid request on which `output` is not set and every successful response,
`run` resolves with exactly the response text and makes no filesystem call, whatever
`keep_original_path` is. -/
theorem C6_no_output_resolves_with_body (o : RawOptions) (self : Instance) (w : World)
    (res : Response)
    (h : constructor (.object o) = .ok self)
    (hout : o.output = .undefined)
    (hsend : w.send (buildRequest self) = .success res) :
    (run self w).settled = some (.resolve (.str res.text)) ∧
    (run self w).promiseCalls.length = 1 ∧
    (run self w).fsCalls = [] := by
  obtain ⟨hv, _⟩ := constructor_ok h
  obtain ⟨o2, ho, v⟩ := joiValidate_ok hv
  cases ho
  have hnone : self.options.output = none := by
    rcases v.output with ⟨_, hn⟩ | ⟨s, hs, _⟩
    · exact hn
    · rw [hout] at hs
      cases hs
  simp [run, hsend, hnone, RunResult.settled]

/-- Witness of C6 on the GitLab test without output. -/
theorem C6_no_output_resolves_with_body_witness :
    constructor (.object gitlabOptions) = .ok gitlabInstance ∧
    gitlabOptions.output = .undefined ∧
    mockedWorld.send (buildRequest gitlabInstance) = .success { text := "test" } ∧
    (run gitlabInstance mockedWorld).settled = some (.resolve (.str "test")) ∧
    (run gitlabInstance mockedWorld).promiseCalls.length = 1 ∧
    (run gitlabInstance mockedWorld).fsCalls = [] :=
  ⟨rfl, rfl, rfl, C6_no_output_resolves_with_body gitlabOptions gitlabInstance mockedWorld
    { text := "test" } rfl rfl rfl⟩

/-- C7: for every valid request with output directory `D` and `keep_original_path` false, and
every successful response, `run` creates no directory and makes exactly one file write, to
`join(D, basename(file))` with the response text; it resolves with `true` when the write
succeeds and rejects with the write error when it fails. -/
theorem C7_flat_write_to_basename (o : RawOptions) (self : Instance) (w : World)
    (D file : String) (res : Response)
    (h : constructor (.object o) = .ok self)
    (hout : o.output = .str D)
    (hfile : o.file = .str file)
    (hkeep : self.options.keep_original_path = false)
    (hsend : w.send (buildRequest self) = .success res) :
    (run self w).fsCalls = [.writeFile (path.join [D, path.basename file]) res.text] ∧
    (run self w).promiseCalls.length = 1 ∧
    (w.writeFile (path.join [D, path.basename file]) res.text = none →
      (run self w).settled = some (.resolve (.bool true))) ∧
    (∀ writeError, w.writeFile (path.join [D, path.basename file]) res.text = some writeError →
      (run self w).settled = some (.reject writeError)) := by
  obtain ⟨hv, _⟩ := constructor_ok h
  obtain ⟨o2, ho, v⟩ := joiValidate_ok hv
  cases ho
  have hsome : self.options.output = some D := by
    rcases v.output with ⟨hu, _⟩ | ⟨s, hs, hn⟩
    · rw [hout] at hu
      cases hu
    · rw [hout] at hs
      cases hs
      exact hn
  have hf : self.options.file = file := by
    have := v.file
    rw [hfile] at this
    exact (JsValue.str.inj this).symm
  subst hf
  refine ⟨?_, ?_, ?_, ?_⟩
  · simp [run, hsend, hsome, hkeep]
  · simp [run, hsend, hsome, hkeep]
  · intro hw
    simp [run, hsend, hsome, hkeep, hw, RunResult.settled]
  · intro writeError hw
    simp [run, hsend, hsome, hkeep, hw, RunResult.settled]

/-- Witness of C7 on a file three segments deep: the write goes to `/tmp/test.txt`. -/
theorem C7_flat_write_to_basename_witness :
    constructor (.object flatOptions) = .ok flatInstance ∧
    (run flatInstance mockedWorld).fsCalls = [.writeFile "/tmp/test.txt" "test"] ∧
    (run flatInstance mockedWorld).settled = some (.resolve (.bool true)) :=
  have hC7 := C7_flat_write_to_basename flatOptions flatInstance mockedWorld "/tmp"
    "src/lib/test.txt" { text := "test" } rfl rfl rfl rfl rfl
  ⟨rfl, hC7.1, hC7.2.2.1 rfl⟩

/-- C8 (the code does otherwise): on the options and stubs of the test
`Should fails to ensureDir`, after `ensureDirSync` has thrown and `reject` was called with its
error, `run` goes on to call `writeFile` and then `resolve(true)`; the promise stays
rejected with the directory error. -/
theorem C8_write_attempted_after_ensureDir_failure :
    constructor (.object ensureDirTestOptions) = .ok ensureDirTestInstance ∧
    (run ensureDirTestInstance ensureDirFailureWorld).fsCalls
      = [.ensureDirSync ".", .writeFile "/tmp/test.txt" "test"] ∧
    (run ensureDirTestInstance ensureDirFailureWorld).promiseCalls
      = [.reject { name := "Error", message := "ensureDirSync error" }, .resolve (.bool true)] ∧
    (run ensureDirTestInstance ensureDirFailureWorld).settled
      = some (.reject { name := "Error", message := "ensureDirSync error" }) := by
  refine ⟨rfl, ?_, ?_, ?_⟩ <;> decide

/-- C9 (the code does otherwise): with output `/tmp`, file `a/test.txt` and
`keep_original_path` true, the file is written to `/tmp/a/test.txt`, whose parent directory is
`/tmp/a`, but the directory ensured before the write is `a`. -/
theorem C9_ensured_directory_is_not_under_output :
    constructor (.object nestedOptions) = .ok nestedInstance ∧
    (run nestedInstance mockedWorld).fsCalls
      = [.ensureDirSync "a", .writeFile "/tmp/a/test.txt" "test"] ∧
    path.join ["/tmp", "a/test.txt"] = "/tmp/a/test.txt" ∧
    path.dirname (path.join ["/tmp", "a/test.txt"]) = "/tmp/a" := by
  refine ⟨rfl, ?_, ?_, ?_⟩ <;> decide

/-- C10 (the code does otherwise): two GitLab requests that agree on provider, repository,
branch, file and private token, one of them carrying `basic_username` and `basic_password`:
the urls and headers are the same, but basic auth is applied to the request of the one that
carries them and not to the other. -/
theorem C10_gitlab_request_gets_basic_auth :
    constructor (.object gitlabBasicOptions) = .ok gitlabBasicInstance ∧
    constructor (.object { gitlabBasicOptions with basic_username := .undefined, basic_password := .undefined })
      = .ok gitlabInstance ∧
    (run gitlabBasicInstance mockedWorld).request
      = { url := "https://gitlab.com/foo/bar/raw/master/test.txt?private_token=myAwesomeToken"
          redirects := 0, headers := [], auth := some ("user", "pass") } ∧
    (run gitlabInstance mockedWorld).request
      = { url := "https://gitlab.com/foo/bar/raw/master/test.txt?private_token=myAwesomeToken"
          redirects := 0, headers := [], auth := none } := by
  refine ⟨rfl, rfl, ?_, ?_⟩ <;> decide

end GitFileDownloader
